import Mathlib

/-
Verification model of the SOCKS5 proxy in src/proxy/socks5_proxy.py.

One client session is modelled as a deterministic function of
  * the byte stream the client sends during the protocol phase,
  * whether the outbound connect to the destination succeeds, and
  * the serialized sequence of readiness events the relay loop observes
    (each `select` wake-up delivers one read result on one socket;
     an empty chunk is EOF, and the two exception shapes the code
     distinguishes are explicit events).

The session produces a trace of observable events: bytes written to the
client, bytes written to the destination, socket creation/closure, and
the two Log Sink calls (`db_log_start`, `db_log_end`).
-/

namespace Socks5

/-- A byte read from or written to a socket (0..255 on a real socket). -/
abbrev Byte := Nat

/-- One read result observed by the relay loop of `ProxyThread.relay_data`:
data (or EOF, the empty chunk) on one of the two sockets, a
`ConnectionResetError`, or any other I/O exception with its message. -/
inductive RelayEvent where
  | clientData (chunk : List Byte)
  | destData (chunk : List Byte)
  | connReset
  | ioErr (msg : String)
  deriving DecidableEq

/-- Destination address parsed by `handle_request`: an IPv4 literal
(`socket.inet_ntoa` of 4 bytes) or a domain name (decoded bytes). -/
inductive DestAddr where
  | ipv4 (b0 b1 b2 b3 : Byte)
  | domain (name : List Byte)
  deriving DecidableEq

/-- Observable events of one session, in order of occurrence. -/
inductive SEvent where
  | sendGreeting
  | sendReply (rep : Nat)
  | relayToDest (chunk : List Byte)
  | relayToClient (chunk : List Byte)
  | createDest
  | closeDest
  | closeClient
  | logStart (addr : DestAddr) (port : Nat)
  | logEnd (bytesSent bytesReceived : Nat) (status : String) (errMsg : Option String)
  deriving DecidableEq

/-- The 10 bytes of `struct.pack("!BBBBIH", SOCKS_VERSION, rep_code, 0, 1, 0, 0)`
built by `ProxyThread.send_reply`. -/
def replyBytes (rep : Nat) : List Byte :=
  [5, rep, 0, 1, 0, 0, 0, 0, 0, 0]

/-- How `relay_data` finishes: a normal `return bytes_sent, bytes_received`
(EOF, or a caught `ConnectionResetError`), a re-raised exception, or the
loop still blocked in `select` when the event sequence runs out. -/
inductive RelayOutcome where
  | returned (bytesSent bytesReceived : Nat)
  | raised (msg : String) (bytesSent bytesReceived : Nat)
  | blocked (bytesSent bytesReceived : Nat)
  deriving DecidableEq

/-- The counters `(bytes_sent, bytes_received)` held when the loop finished. -/
def RelayOutcome.counters : RelayOutcome → Nat × Nat
  | .returned s r => (s, r)
  | .raised _ s r => (s, r)
  | .blocked s r => (s, r)

/-- Whether the loop is still blocked in `select`. -/
def RelayOutcome.isBlocked : RelayOutcome → Bool
  | .blocked _ _ => true
  | _ => false

/-- `ProxyThread.relay_data`: copy chunks between the sockets, adding each
chunk's length to the counter of its direction.  An empty read returns the
counters; `ConnectionResetError` is caught and falls through to the same
return; any other exception is re-raised.  The `finally` block closes the
destination socket on every exit path (but not while still blocked). -/
def relay_data : List RelayEvent → Nat → Nat → List SEvent × RelayOutcome
  | [], s, r => ([], .blocked s r)
  | .clientData [] :: _, s, r => ([.closeDest], .returned s r)
  | .clientData (b :: c) :: rest, s, r =>
      let res := relay_data rest (s + (b :: c).length) r
      (.relayToDest (b :: c) :: res.1, res.2)
  | .destData [] :: _, s, r => ([.closeDest], .returned s r)
  | .destData (b :: c) :: rest, s, r =>
      let res := relay_data rest s (r + (b :: c).length)
      (.relayToClient (b :: c) :: res.1, res.2)
  | .connReset :: _, s, r => ([.closeDest], .returned s r)
  | .ioErr m :: _, s, r => ([.closeDest], .raised m s r)

/-- The successive values of `(bytes_sent, bytes_received)` at the top of
each iteration of the relay loop, ending with the value at exit. -/
def relayStates : List RelayEvent → Nat → Nat → List (Nat × Nat)
  | [], s, r => [(s, r)]
  | .clientData [] :: _, s, r => [(s, r)]
  | .clientData (b :: c) :: rest, s, r => (s, r) :: relayStates rest (s + (b :: c).length) r
  | .destData [] :: _, s, r => [(s, r)]
  | .destData (b :: c) :: rest, s, r => (s, r) :: relayStates rest s (r + (b :: c).length)
  | .connReset :: _, s, r => [(s, r)]
  | .ioErr _ :: _, s, r => [(s, r)]

/-- Result of `ProxyThread.handle_greeting`: a `struct.error` escaping
(fewer than 2 greeting bytes), `False` (version mismatch), or `True`. -/
inductive GreetResult where
  | raised (msg : String)
  | badVersion
  | ok
  deriving DecidableEq

/-- Message of the `struct.error` raised by `struct.unpack("!BB", ...)`
on a short buffer. -/
def unpackErrMsg : String := "unpack requires a buffer of 2 bytes"

/-- `ProxyThread.handle_greeting`: `recv(2)` and unpack version and method
count (raising if fewer than 2 bytes arrive), return `False` with no reply
on a version mismatch, otherwise skip the advertised methods and send the
2-byte method-selection reply `(5, 0)`. -/
def handle_greeting : List Byte → GreetResult × List Byte × List SEvent
  | version :: nmethods :: rest =>
      if version = 5 then
        (.ok, rest.drop nmethods, [.sendGreeting])
      else
        (.badVersion, rest, [])
  | _ => (.raised unpackErrMsg, [], [])

/-- Result of `ProxyThread.handle_request`: `failed` stands for the
`return None, None, None` paths (a reply was already sent), `connected`
for a live destination socket with the parsed address and port. -/
inductive ReqResult where
  | failed
  | connected (addr : DestAddr) (port : Nat)
  deriving DecidableEq

/-- Tail of `handle_request` after the address is parsed: read the 2-byte
big-endian port (a short read makes `struct.unpack` raise, caught by the
enclosing `except` which sends reply 1), create the destination socket,
connect, and on success send reply 0.  A failed connect is caught by the
same `except`: reply 1 is sent and the created socket is never closed. -/
def connectTail (connectOk : Bool) (addr : DestAddr) : List Byte → ReqResult × List SEvent
  | p1 :: p2 :: _ =>
      if connectOk then
        (.connected addr (p1 * 256 + p2), [.createDest, .sendReply 0])
      else
        (.failed, [.createDest, .sendReply 1])
  | _ => (.failed, [.sendReply 1])

/-- A UTF-8 continuation byte (`0x80`..`0xBF`). -/
def isCont (b : Byte) : Bool := 0x80 ≤ b && b ≤ 0xBF

/-- Whether a byte list is valid strict UTF-8, as accepted by Python's
`bytes.decode('utf-8')`: rejects stray continuation bytes, truncated
sequences, overlong encodings (`0xC0`/`0xC1`, and the low ranges after
`0xE0`/`0xF0`), surrogates (`0xED 0xA0`..) and code points above
U+10FFFF (`0xF4 0x90`.., `0xF5`..`0xFF`). -/
def utf8Valid : List Byte → Bool
  | [] => true
  | b :: rest =>
      if b ≤ 0x7F then utf8Valid rest
      else if b ≤ 0xC1 then false
      else if b ≤ 0xDF then
        match rest with
        | c1 :: rest2 => isCont c1 && utf8Valid rest2
        | [] => false
      else if b ≤ 0xEF then
        match rest with
        | c1 :: c2 :: rest2 =>
            (if b = 0xE0 then 0xA0 ≤ c1 && c1 ≤ 0xBF
             else if b = 0xED then 0x80 ≤ c1 && c1 ≤ 0x9F
             else isCont c1) && isCont c2 && utf8Valid rest2
        | _ => false
      else if b ≤ 0xF4 then
        match rest with
        | c1 :: c2 :: c3 :: rest2 =>
            (if b = 0xF0 then 0x90 ≤ c1 && c1 ≤ 0xBF
             else if b = 0xF4 then 0x80 ≤ c1 && c1 ≤ 0x8F
             else isCont c1) && isCont c2 && isCont c3 && utf8Valid rest2
        | _ => false
      else false

/-- `ProxyThread.handle_request`: unpack the 4 header bytes (a short read
raises, caught: reply 1), send reply 5 when the version is not 5 or the
command is not CONNECT, parse an IPv4 (4 bytes; a short read makes
`inet_ntoa` raise, caught: reply 1) or domain (length byte then name;
a missing length byte raises IndexError, and a name that is not valid
UTF-8 makes `addr_bytes.decode('utf-8')` raise — both caught: reply 1,
before any destination socket is created) address, send reply 8 for any
other address type, then hand over to `connectTail`. -/
def handle_request (connectOk : Bool) : List Byte → ReqResult × List SEvent
  | version :: cmd :: _ :: atyp :: rest =>
      if version ≠ 5 ∨ cmd ≠ 1 then
        (.failed, [.sendReply 5])
      else if atyp = 1 then
        match rest with
        | b0 :: b1 :: b2 :: b3 :: rest2 => connectTail connectOk (.ipv4 b0 b1 b2 b3) rest2
        | _ => (.failed, [.sendReply 1])
      else if atyp = 3 then
        match rest with
        | len :: rest2 =>
            if utf8Valid (rest2.take len) then
              connectTail connectOk (.domain (rest2.take len)) (rest2.drop len)
            else
              (.failed, [.sendReply 1])
        | [] => (.failed, [.sendReply 1])
      else
        (.failed, [.sendReply 8])
  | _ => (.failed, [.sendReply 1])

/-- `ProxyThread.run`: greeting, request, `db_log_start`, relay,
`db_log_end` with status `closed`; any exception reaching `run` is
answered with `db_log_end(session_id, 0, 0, 'error', str(e))`; the
`finally` block closes the client socket once the thread finishes. -/
def run (connectOk : Bool) (protoBytes : List Byte) (relayEvs : List RelayEvent) :
    List SEvent :=
  match handle_greeting protoBytes with
  | (.raised msg, _, evs) => evs ++ [.logEnd 0 0 "error" (some msg), .closeClient]
  | (.badVersion, _, evs) => evs ++ [.closeClient]
  | (.ok, rest, evs) =>
      match handle_request connectOk rest with
      | (.failed, evs2) => evs ++ evs2 ++ [.closeClient]
      | (.connected addr port, evs2) =>
          let res := relay_data relayEvs 0 0
          match res.2 with
          | .returned s r =>
              evs ++ evs2 ++ .logStart addr port :: res.1
                ++ [.logEnd s r "closed" none, .closeClient]
          | .raised m _ _ =>
              evs ++ evs2 ++ .logStart addr port :: res.1
                ++ [.logEnd 0 0 "error" (some m), .closeClient]
          | .blocked _ _ =>
              evs ++ evs2 ++ .logStart addr port :: res.1

/-- Event classifiers used to state the claims. -/
def isLogRec : SEvent → Bool
  | .logStart _ _ => true
  | .logEnd _ _ _ _ => true
  | _ => false

def isStartRec : SEvent → Bool
  | .logStart _ _ => true
  | _ => false

def isEndRec : SEvent → Bool
  | .logEnd _ _ _ _ => true
  | _ => false

def isRelayByte : SEvent → Bool
  | .relayToDest _ => true
  | .relayToClient _ => true
  | _ => false

def isReply0 : SEvent → Bool
  | .sendReply 0 => true
  | _ => false

def isCloseDest : SEvent → Bool
  | .closeDest => true
  | _ => false

def isCloseClient : SEvent → Bool
  | .closeClient => true
  | _ => false

def isCreateDest : SEvent → Bool
  | .createDest => true
  | _ => false

/-- All bytes written to the client socket over the whole session. -/
def clientOut : List SEvent → List Byte
  | [] => []
  | .sendGreeting :: rest => 5 :: 0 :: clientOut rest
  | .sendReply rep :: rest => replyBytes rep ++ clientOut rest
  | .relayToClient c :: rest => c ++ clientOut rest
  | _ :: rest => clientOut rest

/-- Total bytes copied client→destination in a trace. -/
def sumToDest : List SEvent → Nat
  | [] => 0
  | .relayToDest c :: rest => c.length + sumToDest rest
  | _ :: rest => sumToDest rest

/-- Total bytes copied destination→client in a trace. -/
def sumToClient : List SEvent → Nat
  | [] => 0
  | .relayToClient c :: rest => c.length + sumToClient rest
  | _ :: rest => sumToClient rest

/-- The `db_log_end` records of a trace. -/
def endRecords (tr : List SEvent) : List SEvent := tr.filter isEndRec

/-- All Log Sink records of a trace. -/
def logRecords (tr : List SEvent) : List SEvent := tr.filter isLogRec

/-- Componentwise order on counter pairs. -/
def pairLe (a b : Nat × Nat) : Prop := a.1 ≤ b.1 ∧ a.2 ≤ b.2

/-- A relay event that carries data (a non-empty chunk): no EOF, no error. -/
def isDataChunk : RelayEvent → Bool
  | .clientData (_ :: _) => true
  | .destData (_ :: _) => true
  | _ => false

/-- Events the relay engine itself can emit. -/
def isEngineEvent (e : SEvent) : Bool := isRelayByte e || isCloseDest e

/-- Any reply sent through `send_reply`. -/
def isReplyEvent : SEvent → Bool
  | .sendReply _ => true
  | _ => false

/-- The request-phase encoding of a destination address: ATYP byte. -/
def atypOf : DestAddr → Byte
  | .ipv4 _ _ _ _ => 1
  | .domain _ => 3

/-- The request-phase encoding of a destination address: DST.ADDR bytes. -/
def addrBytes : DestAddr → List Byte
  | .ipv4 b0 b1 b2 b3 => [b0, b1, b2, b3]
  | .domain name => name.length :: name

/-- Whether the program can parse the address: an IPv4 literal always, a
domain name only when its bytes decode as UTF-8. -/
def addrOk : DestAddr → Bool
  | .ipv4 _ _ _ _ => true
  | .domain name => utf8Valid name

/-- A well-formed client protocol stream: a version-5 greeting advertising
`methods`, then a version-5 CONNECT request for `addr` and the big-endian
port `(p1, p2)`, then any further bytes. -/
def wfConnect (methods : List Byte) (rsv : Byte) (addr : DestAddr)
    (p1 p2 : Byte) (extra : List Byte) : List Byte :=
  5 :: methods.length :: methods ++ 5 :: 1 :: rsv :: atypOf addr :: addrBytes addr
    ++ p1 :: p2 :: extra

/-- The finalization events `run` appends after the relay engine returns. -/
def runTail : RelayOutcome → List SEvent
  | .returned s r => [.logEnd s r "closed" none, .closeClient]
  | .raised m _ _ => [.logEnd 0 0 "error" (some m), .closeClient]
  | .blocked _ _ => []

/-- Unfolding equation: a chunk from the client is copied to the destination. -/
theorem relay_fst_clientCons (b : Byte) (bs : List Byte) (rest : List RelayEvent)
    (s r : Nat) :
    (relay_data (.clientData (b :: bs) :: rest) s r).1 =
      .relayToDest (b :: bs) :: (relay_data rest (s + (b :: bs).length) r).1 := rfl

/-- Unfolding equation: the outcome after a client chunk. -/
theorem relay_snd_clientCons (b : Byte) (bs : List Byte) (rest : List RelayEvent)
    (s r : Nat) :
    (relay_data (.clientData (b :: bs) :: rest) s r).2 =
      (relay_data rest (s + (b :: bs).length) r).2 := rfl

/-- Unfolding equation: a chunk from the destination is copied to the client. -/
theorem relay_fst_destCons (b : Byte) (bs : List Byte) (rest : List RelayEvent)
    (s r : Nat) :
    (relay_data (.destData (b :: bs) :: rest) s r).1 =
      .relayToClient (b :: bs) :: (relay_data rest s (r + (b :: bs).length)).1 := rfl

/-- Unfolding equation: the outcome after a destination chunk. -/
theorem relay_snd_destCons (b : Byte) (bs : List Byte) (rest : List RelayEvent)
    (s r : Nat) :
    (relay_data (.destData (b :: bs) :: rest) s r).2 =
      (relay_data rest s (r + (b :: bs).length)).2 := rfl

/-- The final counters equal the initial counters plus the bytes the engine
copied in each direction. -/
theorem relay_counters_eq (evs : List RelayEvent) (s r : Nat) :
    (relay_data evs s r).2.counters =
      (s + sumToDest (relay_data evs s r).1, r + sumToClient (relay_data evs s r).1) := by
  induction evs generalizing s r with
  | nil => simp [relay_data, RelayOutcome.counters, sumToDest, sumToClient]
  | cons ev rest ih =>
    cases ev with
    | clientData c =>
      cases c with
      | nil => simp [relay_data, RelayOutcome.counters, sumToDest, sumToClient]
      | cons b bs =>
        rw [relay_fst_clientCons, relay_snd_clientCons, ih (s + (b :: bs).length) r]
        simp [sumToDest, sumToClient, Prod.mk.injEq]
        omega
    | destData c =>
      cases c with
      | nil => simp [relay_data, RelayOutcome.counters, sumToDest, sumToClient]
      | cons b bs =>
        rw [relay_fst_destCons, relay_snd_destCons, ih s (r + (b :: bs).length)]
        simp [sumToDest, sumToClient, Prod.mk.injEq]
        omega
    | connReset => simp [relay_data, RelayOutcome.counters, sumToDest, sumToClient]
    | ioErr m => simp [relay_data, RelayOutcome.counters, sumToDest, sumToClient]

/-- The state list always starts at the initial counters. -/
theorem relayStates_head (evs : List RelayEvent) (s r : Nat) :
    ∃ t, relayStates evs s r = (s, r) :: t := by
  cases evs with
  | nil => exact ⟨[], rfl⟩
  | cons ev rest =>
    cases ev with
    | clientData c =>
      cases c with
      | nil => exact ⟨[], rfl⟩
      | cons b bs => exact ⟨_, rfl⟩
    | destData c =>
      cases c with
      | nil => exact ⟨[], rfl⟩
      | cons b bs => exact ⟨_, rfl⟩
    | connReset => exact ⟨[], rfl⟩
    | ioErr m => exact ⟨[], rfl⟩

/-- The counters never decrease from one loop iteration to the next. -/
theorem relayStates_chain (evs : List RelayEvent) (s r : Nat) :
    List.Chain' pairLe (relayStates evs s r) := by
  induction evs generalizing s r with
  | nil => simp [relayStates]
  | cons ev rest ih =>
    cases ev with
    | clientData c =>
      cases c with
      | nil => simp [relayStates]
      | cons b bs =>
        obtain ⟨t, ht⟩ := relayStates_head rest (s + (b :: bs).length) r
        simp only [relayStates]
        rw [ht]
        exact List.Chain'.cons ⟨Nat.le_add_right s _, le_refl r⟩ (ht ▸ ih _ _)
    | destData c =>
      cases c with
      | nil => simp [relayStates]
      | cons b bs =>
        obtain ⟨t, ht⟩ := relayStates_head rest s (r + (b :: bs).length)
        simp only [relayStates]
        rw [ht]
        exact List.Chain'.cons ⟨le_refl s, Nat.le_add_right r _⟩ (ht ▸ ih _ _)
    | connReset => simp [relayStates]
    | ioErr m => simp [relayStates]

/-- The last recorded state is the pair of counters the engine finished with. -/
theorem relayStates_getLast (evs : List RelayEvent) (s r : Nat) :
    (relayStates evs s r).getLast? = some (relay_data evs s r).2.counters := by
  induction evs generalizing s r with
  | nil => simp [relayStates, relay_data, RelayOutcome.counters]
  | cons ev rest ih =>
    cases ev with
    | clientData c =>
      cases c with
      | nil => simp [relayStates, relay_data, RelayOutcome.counters]
      | cons b bs =>
        obtain ⟨t, ht⟩ := relayStates_head rest (s + (b :: bs).length) r
        simp only [relayStates, relay_data]
        rw [ht, List.getLast?_cons_cons, ← ht, ih]
    | destData c =>
      cases c with
      | nil => simp [relayStates, relay_data, RelayOutcome.counters]
      | cons b bs =>
        obtain ⟨t, ht⟩ := relayStates_head rest s (r + (b :: bs).length)
        simp only [relayStates, relay_data]
        rw [ht, List.getLast?_cons_cons, ← ht, ih]
    | connReset => simp [relayStates, relay_data, RelayOutcome.counters]
    | ioErr m => simp [relayStates, relay_data, RelayOutcome.counters]

/-- The engine's trace holds only byte copies and the destination close. -/
theorem relay_trace_engine (evs : List RelayEvent) (s r : Nat) :
    ∀ e ∈ (relay_data evs s r).1, isEngineEvent e = true := by
  induction evs generalizing s r with
  | nil => simp [relay_data]
  | cons ev rest ih =>
    cases ev with
    | clientData c =>
      cases c with
      | nil => simp [relay_data, isEngineEvent, isCloseDest]
      | cons b bs =>
        intro e he
        simp only [relay_data, List.mem_cons] at he
        rcases he with he | he
        · subst he; rfl
        · exact ih _ _ _ he
    | destData c =>
      cases c with
      | nil => simp [relay_data, isEngineEvent, isCloseDest]
      | cons b bs =>
        intro e he
        simp only [relay_data, List.mem_cons] at he
        rcases he with he | he
        · subst he; rfl
        · exact ih _ _ _ he
    | connReset => simp [relay_data, isEngineEvent, isCloseDest]
    | ioErr m => simp [relay_data, isEngineEvent, isCloseDest]

/-- When the engine exits (it is not still blocked in `select`), its trace
ends with the destination-socket close and holds no other close. -/
theorem relay_trace_closeDest (evs : List RelayEvent) (s r : Nat)
    (h : (relay_data evs s r).2.isBlocked = false) :
    ∃ t, (relay_data evs s r).1 = t ++ [.closeDest] ∧ t.countP isCloseDest = 0 := by
  induction evs generalizing s r with
  | nil => simp [relay_data, RelayOutcome.isBlocked] at h
  | cons ev rest ih =>
    cases ev with
    | clientData c =>
      cases c with
      | nil => exact ⟨[], rfl, rfl⟩
      | cons b bs =>
        rw [relay_snd_clientCons] at h
        obtain ⟨t, ht, hc⟩ := ih (s + (b :: bs).length) r h
        refine ⟨.relayToDest (b :: bs) :: t, ?_, ?_⟩
        · rw [relay_fst_clientCons, ht]; rfl
        · simp [List.countP_cons, isCloseDest, hc]
    | destData c =>
      cases c with
      | nil => exact ⟨[], rfl, rfl⟩
      | cons b bs =>
        rw [relay_snd_destCons] at h
        obtain ⟨t, ht, hc⟩ := ih s (r + (b :: bs).length) h
        refine ⟨.relayToClient (b :: bs) :: t, ?_, ?_⟩
        · rw [relay_fst_destCons, ht]; rfl
        · simp [List.countP_cons, isCloseDest, hc]
    | connReset => exact ⟨[], rfl, rfl⟩
    | ioErr m => exact ⟨[], rfl, rfl⟩

/-- Engine events are not replies, log records, or client-socket closes. -/
theorem engineEvent_classify (e : SEvent) (h : isEngineEvent e = true) :
    isReply0 e = false ∧ isReplyEvent e = false ∧ isStartRec e = false ∧
      isEndRec e = false ∧ isLogRec e = false ∧ isCloseClient e = false ∧
      isCreateDest e = false := by
  cases e <;>
    simp [isEngineEvent, isRelayByte, isCloseDest, isReply0, isReplyEvent,
      isStartRec, isEndRec, isLogRec, isCloseClient, isCreateDest] at h ⊢

/-- All possible results of the port-parse/connect tail of `handle_request`. -/
theorem connectTail_cases (ck : Bool) (addr : DestAddr) (bs : List Byte) :
    connectTail ck addr bs = (.failed, [.sendReply 1]) ∨
    connectTail ck addr bs = (.failed, [.createDest, .sendReply 1]) ∨
    (∃ port, connectTail ck addr bs = (.connected addr port, [.createDest, .sendReply 0])) := by
  rcases bs with _ | ⟨p1, _ | ⟨p2, rest⟩⟩
  · left; rfl
  · left; rfl
  · cases ck
    · right; left; simp [connectTail]
    · right; right; exact ⟨p1 * 256 + p2, by simp [connectTail]⟩

/-- All possible results of `handle_request`. -/
theorem handle_request_cases (ck : Bool) (bs : List Byte) :
    handle_request ck bs = (.failed, [.sendReply 5]) ∨
    handle_request ck bs = (.failed, [.sendReply 1]) ∨
    handle_request ck bs = (.failed, [.sendReply 8]) ∨
    handle_request ck bs = (.failed, [.createDest, .sendReply 1]) ∨
    (∃ addr port, handle_request ck bs = (.connected addr port, [.createDest, .sendReply 0])) := by
  rcases bs with _ | ⟨v, _ | ⟨c, _ | ⟨rv, _ | ⟨aty, rest⟩⟩⟩⟩
  · right; left; rfl
  · right; left; rfl
  · right; left; rfl
  · right; left; rfl
  · by_cases hvc : v ≠ 5 ∨ c ≠ 1
    · left; simp [handle_request, hvc]
    · push_neg at hvc
      obtain ⟨hv, hc⟩ := hvc
      subst hv; subst hc
      by_cases ha1 : aty = 1
      · subst ha1
        rcases rest with _ | ⟨b0, _ | ⟨b1, _ | ⟨b2, _ | ⟨b3, rest2⟩⟩⟩⟩
        · right; left; simp [handle_request]
        · right; left; simp [handle_request]
        · right; left; simp [handle_request]
        · right; left; simp [handle_request]
        · have hr : handle_request ck (5 :: 1 :: rv :: 1 :: b0 :: b1 :: b2 :: b3 :: rest2) =
              connectTail ck (.ipv4 b0 b1 b2 b3) rest2 := by
            simp [handle_request]
          rw [hr]
          rcases connectTail_cases ck (.ipv4 b0 b1 b2 b3) rest2 with h | h | ⟨port, h⟩
          · right; left; exact h
          · right; right; right; left; exact h
          · right; right; right; right; exact ⟨_, _, h⟩
      · by_cases ha3 : aty = 3
        · subst ha3
          rcases rest with _ | ⟨len, rest2⟩
          · right; left; simp [handle_request]
          · by_cases hdec : utf8Valid (rest2.take len) = true
            · have hr : handle_request ck (5 :: 1 :: rv :: 3 :: len :: rest2) =
                  connectTail ck (.domain (rest2.take len)) (rest2.drop len) := by
                simp [handle_request, hdec]
              rw [hr]
              rcases connectTail_cases ck (.domain (rest2.take len)) (rest2.drop len) with
                h | h | ⟨port, h⟩
              · right; left; exact h
              · right; right; right; left; exact h
              · right; right; right; right; exact ⟨_, _, h⟩
            · right; left
              simp [handle_request, hdec]
        · right; right; left; simp [handle_request, ha1, ha3]

/-- On a well-formed CONNECT stream whose address the program can parse,
`handle_request` extracts exactly the request's address and reaches the
connect step. -/
theorem handle_request_wf (ck : Bool) (rsv : Byte) (addr : DestAddr) (p1 p2 : Byte)
    (extra : List Byte) (haddr : addrOk addr = true) :
    handle_request ck (5 :: 1 :: rsv :: atypOf addr :: (addrBytes addr ++ p1 :: p2 :: extra)) =
      connectTail ck addr (p1 :: p2 :: extra) := by
  cases addr with
  | ipv4 b0 b1 b2 b3 => simp [handle_request, atypOf, addrBytes]
  | domain name =>
      simp only [addrOk] at haddr
      simp [handle_request, atypOf, addrBytes, List.take_left, List.drop_left, haddr]

/-- The full event trace of a session whose client speaks a well-formed
greeting and CONNECT request. -/
theorem run_wfConnect (ck : Bool) (methods : List Byte) (rsv : Byte) (addr : DestAddr)
    (p1 p2 : Byte) (extra : List Byte) (revs : List RelayEvent)
    (haddr : addrOk addr = true) :
    run ck (wfConnect methods rsv addr p1 p2 extra) revs =
      if ck then
        .sendGreeting :: .createDest :: .sendReply 0 ::
          .logStart addr (p1 * 256 + p2) :: (relay_data revs 0 0).1
          ++ runTail (relay_data revs 0 0).2
      else
        [.sendGreeting, .createDest, .sendReply 1, .closeClient] := by
  have hg : handle_greeting (wfConnect methods rsv addr p1 p2 extra) =
      (.ok, 5 :: 1 :: rsv :: atypOf addr :: addrBytes addr ++ p1 :: p2 :: extra,
        [.sendGreeting]) := by
    simp [wfConnect, handle_greeting, List.cons_append, List.append_assoc, List.drop_left]
  have hreq := handle_request_wf ck rsv addr p1 p2 extra haddr
  cases ck
  · simp [run, hg, hreq, connectTail]
  · cases hout : (relay_data revs 0 0).2 with
    | returned s r => simp [run, hg, hreq, connectTail, runTail, hout]
    | raised m s r => simp [run, hg, hreq, connectTail, runTail, hout]
    | blocked s r => simp [run, hg, hreq, connectTail, runTail, hout]

/-- Every session trace has one of four shapes: greeting raised, greeting
version mismatch, request failed, or connected and relaying. -/
theorem run_shape (ck : Bool) (pb : List Byte) (revs : List RelayEvent) :
    (∃ ms, run ck pb revs = [.logEnd 0 0 "error" (some ms), .closeClient]) ∨
    run ck pb revs = [.closeClient] ∨
    (∃ evs2, run ck pb revs = .sendGreeting :: (evs2 ++ [.closeClient]) ∧
      (evs2 = [.sendReply 5] ∨ evs2 = [.sendReply 1] ∨ evs2 = [.sendReply 8] ∨
       evs2 = [.createDest, .sendReply 1])) ∨
    (∃ addr port, run ck pb revs =
      .sendGreeting :: .createDest :: .sendReply 0 :: .logStart addr port ::
        (relay_data revs 0 0).1 ++ runTail (relay_data revs 0 0).2) := by
  rcases pb with _ | ⟨v, _ | ⟨n, rest⟩⟩
  · left; exact ⟨unpackErrMsg, rfl⟩
  · left; exact ⟨unpackErrMsg, rfl⟩
  · by_cases hv : v = 5
    · subst hv
      have hg : handle_greeting (5 :: n :: rest) = (.ok, rest.drop n, [.sendGreeting]) := by
        simp [handle_greeting]
      rcases handle_request_cases ck (rest.drop n) with h | h | h | h | ⟨addr, port, h⟩
      · right; right; left
        exact ⟨[.sendReply 5], by simp [run, hg, h], Or.inl rfl⟩
      · right; right; left
        exact ⟨[.sendReply 1], by simp [run, hg, h], Or.inr (Or.inl rfl)⟩
      · right; right; left
        exact ⟨[.sendReply 8], by simp [run, hg, h], Or.inr (Or.inr (Or.inl rfl))⟩
      · right; right; left
        exact ⟨[.createDest, .sendReply 1], by simp [run, hg, h],
          Or.inr (Or.inr (Or.inr rfl))⟩
      · right; right; right
        refine ⟨addr, port, ?_⟩
        cases hout : (relay_data revs 0 0).2 with
        | returned s r => simp [run, hg, h, runTail, hout]
        | raised m s r => simp [run, hg, h, runTail, hout]
        | blocked s r => simp [run, hg, h, runTail, hout]
    · right; left
      simp [run, handle_greeting, hv]

/-- Filtering the engine trace by a predicate false on engine events is empty. -/
theorem filter_engine_nil {p : SEvent → Bool} (revs : List RelayEvent) (s r : Nat)
    (hp : ∀ e, isEngineEvent e = true → p e = false) :
    ((relay_data revs s r).1).filter p = [] := by
  rw [List.filter_eq_nil_iff]
  intro e he
  simp [hp e (relay_trace_engine revs s r e he)]

/-- Counting the engine trace by a predicate false on engine events gives 0. -/
theorem countP_engine_zero {p : SEvent → Bool} (revs : List RelayEvent) (s r : Nat)
    (hp : ∀ e, isEngineEvent e = true → p e = false) :
    ((relay_data revs s r).1).countP p = 0 := by
  rw [List.countP_eq_zero]
  intro e he
  simp [hp e (relay_trace_engine revs s r e he)]

/-- When the relay returns normally, the single end record carries the final
counters, status closed and no message. -/
theorem run_end_returned (methods : List Byte) (rsv : Byte) (addr : DestAddr)
    (p1 p2 : Byte) (extra : List Byte) (revs : List RelayEvent)
    (haddr : addrOk addr = true) (s r : Nat)
    (h : (relay_data revs 0 0).2 = .returned s r) :
    endRecords (run true (wfConnect methods rsv addr p1 p2 extra) revs) =
      [.logEnd s r "closed" none] := by
  have hE : ((relay_data revs 0 0).1).filter isEndRec = [] :=
    filter_engine_nil revs 0 0 (fun e he => (engineEvent_classify e he).2.2.2.1)
  rw [endRecords, run_wfConnect true methods rsv addr p1 p2 extra revs haddr]
  simp [h, runTail, isEndRec, List.filter_append, hE]

/-- When the relay re-raises, the single end record carries zero counters,
status error and the exception message. -/
theorem run_end_raised (methods : List Byte) (rsv : Byte) (addr : DestAddr)
    (p1 p2 : Byte) (extra : List Byte) (revs : List RelayEvent)
    (haddr : addrOk addr = true) (m : String) (s r : Nat)
    (h : (relay_data revs 0 0).2 = .raised m s r) :
    endRecords (run true (wfConnect methods rsv addr p1 p2 extra) revs) =
      [.logEnd 0 0 "error" (some m)] := by
  have hE : ((relay_data revs 0 0).1).filter isEndRec = [] :=
    filter_engine_nil revs 0 0 (fun e he => (engineEvent_classify e he).2.2.2.1)
  rw [endRecords, run_wfConnect true methods rsv addr p1 p2 extra revs haddr]
  simp [h, runTail, isEndRec, List.filter_append, hE]

/-- Counts of the finalization events when the session finishes. -/
theorem runTail_counts (out : RelayOutcome) (h : out.isBlocked = false) :
    (runTail out).countP isReply0 = 0 ∧ (runTail out).countP isStartRec = 0 ∧
    (runTail out).countP isEndRec = 1 ∧ (runTail out).countP isCloseClient = 1 ∧
    (runTail out).countP isCloseDest = 0 := by
  cases out with
  | returned s r =>
      refine ⟨?_, ?_, ?_, ?_, ?_⟩ <;>
        simp [runTail, List.countP_cons, isReply0, isStartRec, isEndRec,
          isCloseClient, isCloseDest]
  | raised m s r =>
      refine ⟨?_, ?_, ?_, ?_, ?_⟩ <;>
        simp [runTail, List.countP_cons, isReply0, isStartRec, isEndRec,
          isCloseClient, isCloseDest]
  | blocked s r => simp [RelayOutcome.isBlocked] at h

/-- A run of non-empty data chunks followed by an orderly close makes the
engine return normally. -/
theorem relay_data_eof (pre : List RelayEvent) (eof : RelayEvent)
    (heof : eof = .clientData [] ∨ eof = .destData []) :
    ∀ s r, pre.all isDataChunk = true →
      ∃ s2 r2, (relay_data (pre ++ [eof]) s r).2 = .returned s2 r2 := by
  induction pre with
  | nil =>
      intro s r _
      rcases heof with h | h <;> subst h
      · exact ⟨s, r, rfl⟩
      · exact ⟨s, r, rfl⟩
  | cons ev rest ih =>
      intro s r hpre
      simp only [List.all_cons, Bool.and_eq_true] at hpre
      obtain ⟨hev, hrest⟩ := hpre
      cases ev with
      | clientData c =>
          cases c with
          | nil => simp [isDataChunk] at hev
          | cons b bs =>
              rw [List.cons_append, relay_snd_clientCons]
              exact ih _ _ hrest
      | destData c =>
          cases c with
          | nil => simp [isDataChunk] at hev
          | cons b bs =>
              rw [List.cons_append, relay_snd_destCons]
              exact ih _ _ hrest
      | connReset => simp [isDataChunk] at hev
      | ioErr m => simp [isDataChunk] at hev

/-- Claim C1: for every completed relay, the returned `bytes_sent` equals the
exact cumulative bytes copied client→destination and `bytes_received` the
cumulative bytes copied destination→client; the counter pair passes through
the per-chunk accumulation states and is monotonically non-decreasing
throughout the relay loop, ending at the returned values. -/
theorem C1_relay_byte_accounting (evs : List RelayEvent) (tr : List SEvent) (s r : Nat)
    (h : relay_data evs 0 0 = (tr, .returned s r)) :
    s = sumToDest tr ∧ r = sumToClient tr ∧
    List.Chain' pairLe (relayStates evs 0 0) ∧
    (relayStates evs 0 0).getLast? = some (s, r) := by
  have hc := relay_counters_eq evs 0 0
  rw [h] at hc
  simp only [RelayOutcome.counters, Nat.zero_add, Prod.mk.injEq] at hc
  obtain ⟨h1, h2⟩ := hc
  refine ⟨h1, h2, relayStates_chain evs 0 0, ?_⟩
  have hg := relayStates_getLast evs 0 0
  rw [h] at hg
  simpa [RelayOutcome.counters] using hg

/-- Witness for C1 at a concrete relay. -/
theorem C1_witness :
    3 = sumToDest [.relayToDest [7, 8], .relayToDest [9], .relayToClient [1], .closeDest] ∧
    1 = sumToClient [.relayToDest [7, 8], .relayToDest [9], .relayToClient [1], .closeDest] ∧
    List.Chain' pairLe
      (relayStates [.clientData [7, 8], .clientData [9], .destData [1], .clientData []] 0 0) ∧
    (relayStates [.clientData [7, 8], .clientData [9], .destData [1], .clientData []]
      0 0).getLast? = some (3, 1) :=
  C1_relay_byte_accounting
    [.clientData [7, 8], .clientData [9], .destData [1], .clientData []]
    [.relayToDest [7, 8], .relayToDest [9], .relayToClient [1], .closeDest] 3 1 (by decide)

/-- Claim C5: a greeting whose version byte is not 5 aborts the session at
once: the whole trace is just the client-socket close, so zero reply bytes
are written to the client, no request phase, no relay, no record. -/
theorem C5_bad_version_silent (v n : Byte) (rest : List Byte) (ck : Bool)
    (revs : List RelayEvent) (hv : v ≠ 5) :
    run ck (v :: n :: rest) revs = [.closeClient] ∧
    clientOut (run ck (v :: n :: rest) revs) = [] := by
  have h : run ck (v :: n :: rest) revs = [.closeClient] := by
    simp [run, handle_greeting, hv]
  exact ⟨h, by rw [h]; rfl⟩

/-- Witness for C5 at a version-4 greeting. -/
theorem C5_witness :
    run true (4 :: 1 :: [0]) [] = [.closeClient] ∧
    clientOut (run true (4 :: 1 :: [0]) []) = [] :=
  C5_bad_version_silent 4 1 [0] true [] (by decide)

/-- Claim C10: a request header whose version byte is not 5 — even with
command CONNECT — gets the same reply 5 as an unsupported command, and the
session terminates with no relay and no record; it is not closed silently
the way a bad greeting version is. -/
theorem C10_bad_request_version (methods : List Byte) (v c rv aty : Byte)
    (rest2 : List Byte) (ck : Bool) (revs : List RelayEvent) (hv : v ≠ 5) :
    run ck (5 :: methods.length :: (methods ++ v :: c :: rv :: aty :: rest2)) revs =
      [.sendGreeting, .sendReply 5, .closeClient] := by
  have hg : handle_greeting
      (5 :: methods.length :: (methods ++ v :: c :: rv :: aty :: rest2)) =
      (.ok, v :: c :: rv :: aty :: rest2, [.sendGreeting]) := by
    simp [handle_greeting, List.drop_left]
  have hr : handle_request ck (v :: c :: rv :: aty :: rest2) = (.failed, [.sendReply 5]) := by
    simp [handle_request, hv]
  simp [run, hg, hr]

/-- Witness for C10: version 4, command CONNECT. -/
theorem C10_witness :
    run true (5 :: [0].length :: ([0] ++ 4 :: 1 :: 0 :: 1 :: [127, 0, 0, 1, 0, 80])) [] =
      [.sendGreeting, .sendReply 5, .closeClient] :=
  C10_bad_request_version [0] 4 1 0 1 [127, 0, 0, 1, 0, 80] true [] (by decide)

/-- Claim C2: with a reachable destination, a well-formed CONNECT request
and a terminating relay, the trace splits into a prefix holding exactly one
REP = 0 reply, exactly one start record, no relay byte and no end record,
and a suffix holding no further success reply, no start record and exactly
one end record: the single success reply is written before any relay byte
moves, the single start record is emitted before any byte moves, and it
precedes the single end record. -/
theorem C2_reply_start_end_order (methods : List Byte) (rsv : Byte) (addr : DestAddr)
    (p1 p2 : Byte) (extra : List Byte) (revs : List RelayEvent) (pb : List Byte)
    (hin : pb = wfConnect methods rsv addr p1 p2 extra)
    (haddr : addrOk addr = true)
    (hterm : (relay_data revs 0 0).2.isBlocked = false) :
    ∃ pre post, run true pb revs = pre ++ post ∧
      pre.countP isReply0 = 1 ∧ pre.countP isRelayByte = 0 ∧
      pre.countP isStartRec = 1 ∧ pre.countP isEndRec = 0 ∧
      post.countP isReply0 = 0 ∧ post.countP isStartRec = 0 ∧
      post.countP isEndRec = 1 := by
  subst hin
  have h0 : ((relay_data revs 0 0).1).countP isReply0 = 0 :=
    countP_engine_zero revs 0 0 (fun e he => (engineEvent_classify e he).1)
  have hS : ((relay_data revs 0 0).1).countP isStartRec = 0 :=
    countP_engine_zero revs 0 0 (fun e he => (engineEvent_classify e he).2.2.1)
  have hE : ((relay_data revs 0 0).1).countP isEndRec = 0 :=
    countP_engine_zero revs 0 0 (fun e he => (engineEvent_classify e he).2.2.2.1)
  obtain ⟨t0, tS, tE, _, _⟩ := runTail_counts _ hterm
  refine ⟨[.sendGreeting, .createDest, .sendReply 0, .logStart addr (p1 * 256 + p2)],
    (relay_data revs 0 0).1 ++ runTail (relay_data revs 0 0).2, ?_, ?_, ?_, ?_, ?_, ?_, ?_, ?_⟩
  · rw [run_wfConnect true methods rsv addr p1 p2 extra revs haddr]; simp
  · simp [List.countP_cons, isReply0]
  · simp [List.countP_cons, isRelayByte]
  · simp [List.countP_cons, isStartRec]
  · simp [List.countP_cons, isEndRec]
  · simp [List.countP_append, h0, t0]
  · simp [List.countP_append, hS, tS]
  · simp [List.countP_append, hE, tE]

/-- Witness for C2 at a concrete IPv4 CONNECT session. -/
theorem C2_witness :
    ∃ pre post,
      run true (wfConnect [0] 0 (.ipv4 127 0 0 1) 0 80 []) [.clientData []] = pre ++ post ∧
      pre.countP isReply0 = 1 ∧ pre.countP isRelayByte = 0 ∧
      pre.countP isStartRec = 1 ∧ pre.countP isEndRec = 0 ∧
      post.countP isReply0 = 0 ∧ post.countP isStartRec = 0 ∧
      post.countP isEndRec = 1 :=
  C2_reply_start_end_order [0] 0 (.ipv4 127 0 0 1) 0 80 [] [.clientData []] _ rfl rfl
    (by decide)

/-- Claim C6 fails as stated: the request `VER=5, CMD=2, ATYP=4` has an
address type outside {1, 3}, yet the server answers with reply 5 (the
command check fires first) and never writes the claimed reply 8. -/
theorem C6_counterexample :
    run true [5, 0, 5, 2, 0, 4] [] = [.sendGreeting, .sendReply 5, .closeClient] ∧
    SEvent.sendReply 8 ∉ run true [5, 0, 5, 2, 0, 4] [] :=
  ⟨by decide, by decide⟩

/-- Claim C6 amended: a request whose command is not CONNECT(1) gets reply 5
and the session terminates with no relay; a request with version 5 and
command CONNECT whose address type is neither 1 nor 3 gets reply 8 and the
session terminates with no relay. -/
theorem C6_amended (methods : List Byte) (v c rv aty : Byte) (rest2 : List Byte)
    (ck : Bool) (revs : List RelayEvent) :
    (c ≠ 1 →
      run ck (5 :: methods.length :: (methods ++ v :: c :: rv :: aty :: rest2)) revs =
        [.sendGreeting, .sendReply 5, .closeClient]) ∧
    (v = 5 → c = 1 → aty ≠ 1 → aty ≠ 3 →
      run ck (5 :: methods.length :: (methods ++ v :: c :: rv :: aty :: rest2)) revs =
        [.sendGreeting, .sendReply 8, .closeClient]) := by
  have hg : handle_greeting
      (5 :: methods.length :: (methods ++ v :: c :: rv :: aty :: rest2)) =
      (.ok, v :: c :: rv :: aty :: rest2, [.sendGreeting]) := by
    simp [handle_greeting, List.drop_left]
  constructor
  · intro hc
    have hr : handle_request ck (v :: c :: rv :: aty :: rest2) =
        (.failed, [.sendReply 5]) := by
      simp [handle_request, hc]
    simp [run, hg, hr]
  · intro hv hc h1 h3
    subst hv; subst hc
    have hr : handle_request ck (5 :: 1 :: rv :: aty :: rest2) =
        (.failed, [.sendReply 8]) := by
      simp [handle_request, h1, h3]
    simp [run, hg, hr]

/-- Witness for the amended C6: command 2 gets reply 5; address type 4 with
command CONNECT gets reply 8. -/
theorem C6_witness :
    run true (5 :: [0].length :: ([0] ++ 5 :: 2 :: 0 :: 1 :: [9, 9])) [] =
      [.sendGreeting, .sendReply 5, .closeClient] ∧
    run true (5 :: [0].length :: ([0] ++ 5 :: 1 :: 0 :: 4 :: [9, 9])) [] =
      [.sendGreeting, .sendReply 8, .closeClient] :=
  ⟨(C6_amended [0] 5 2 0 1 [9, 9] true []).1 (by decide),
   (C6_amended [0] 5 1 0 4 [9, 9] true []).2 rfl rfl (by decide) (by decide)⟩

/-- Claim C3 fails as stated: after an I/O failure mid-relay (other than a
reset) the end record has status error but byte counts 0, 0, not the 3
bytes already copied; after a peer reset mid-relay the end record has
status closed, not error. -/
theorem C3_counterexample :
    (sumToDest (run true (wfConnect [0] 0 (.ipv4 10 0 0 1) 0 80 [])
        [.clientData [1, 2, 3], .ioErr "io fail"]) = 3 ∧
      endRecords (run true (wfConnect [0] 0 (.ipv4 10 0 0 1) 0 80 [])
        [.clientData [1, 2, 3], .ioErr "io fail"]) =
        [.logEnd 0 0 "error" (some "io fail")]) ∧
    (endRecords (run true (wfConnect [0] 0 (.ipv4 10 0 0 1) 0 80 [])
        [.clientData [1, 2, 3], .connReset]) =
        [.logEnd 3 0 "closed" none]) :=
  ⟨⟨by decide, by decide⟩, by decide⟩

/-- Claim C3 amended: an I/O failure mid-relay other than a peer reset ends
the session with status error and the error message, but the end record
carries byte counts 0, 0 — the partial counts are discarded; a peer reset
is caught and treated like end-of-stream, so the session ends with status
closed and the end record carries the partial byte counts with no error
message. -/
theorem C3_amended :
    (∀ (methods : List Byte) (rsv : Byte) (addr : DestAddr) (p1 p2 : Byte)
        (extra : List Byte) (revs : List RelayEvent) (m : String) (s r : Nat),
      addrOk addr = true →
      (relay_data revs 0 0).2 = .raised m s r →
      endRecords (run true (wfConnect methods rsv addr p1 p2 extra) revs) =
        [.logEnd 0 0 "error" (some m)]) ∧
    (∀ (methods : List Byte) (rsv : Byte) (addr : DestAddr) (p1 p2 : Byte)
        (extra : List Byte) (revs : List RelayEvent) (s r : Nat),
      addrOk addr = true →
      (relay_data revs 0 0).2 = .returned s r →
      endRecords (run true (wfConnect methods rsv addr p1 p2 extra) revs) =
        [.logEnd s r "closed" none]) ∧
    (∀ (rest : List RelayEvent) (s r : Nat),
      relay_data (.connReset :: rest) s r = ([.closeDest], .returned s r)) :=
  ⟨fun methods rsv addr p1 p2 extra revs m s r haddr h =>
      run_end_raised methods rsv addr p1 p2 extra revs haddr m s r h,
   fun methods rsv addr p1 p2 extra revs s r haddr h =>
      run_end_returned methods rsv addr p1 p2 extra revs haddr s r h,
   fun _ _ _ => rfl⟩

/-- Witness for the amended C3 at concrete failing relays. -/
theorem C3_witness :
    endRecords (run true (wfConnect [0] 0 (.ipv4 10 0 0 1) 0 80 [])
        [.clientData [1, 2, 3], .ioErr "io fail"]) =
      [.logEnd 0 0 "error" (some "io fail")] ∧
    endRecords (run true (wfConnect [0] 0 (.ipv4 10 0 0 1) 0 80 [])
        [.clientData [1, 2, 3], .connReset]) =
      [.logEnd 3 0 "closed" none] ∧
    relay_data [.connReset] 5 7 = ([.closeDest], .returned 5 7) :=
  ⟨C3_amended.1 [0] 0 (.ipv4 10 0 0 1) 0 80 []
      [.clientData [1, 2, 3], .ioErr "io fail"] "io fail" 3 0 rfl (by decide),
   C3_amended.2.1 [0] 0 (.ipv4 10 0 0 1) 0 80 []
      [.clientData [1, 2, 3], .connReset] 3 0 rfl (by decide),
   C3_amended.2.2 [] 5 7⟩

/-- Claim C4 fails as stated: a greeting of a single byte makes
`struct.unpack` raise out of `handle_greeting`; `run` catches it and emits
an error end record, so this pre-relay failure does emit a Log Sink record
(with no start record). -/
theorem C4_counterexample :
    logRecords (run true [5] []) = [.logEnd 0 0 "error" (some unpackErrMsg)] ∧
    (run true [5] []).countP isStartRec = 0 :=
  ⟨by decide, by decide⟩

/-- Claim C4 amended: a session whose greeting holds at least two bytes and
that never reaches the relay phase (no start record) emits no Log Sink
record at all; in particular a failed outbound connect to a parseable
address yields reply 1 after the destination socket was created, the
session terminates, the relay never starts and no record is emitted.  Only
a greeting shorter than two bytes escapes this: it raises and produces a
single error end record. -/
theorem C4_amended :
    (∀ (ck : Bool) (v n : Byte) (rest : List Byte) (revs : List RelayEvent),
      (run ck (v :: n :: rest) revs).countP isStartRec = 0 →
      logRecords (run ck (v :: n :: rest) revs) = []) ∧
    (∀ (methods : List Byte) (rsv : Byte) (addr : DestAddr) (p1 p2 : Byte)
        (extra : List Byte) (revs : List RelayEvent),
      addrOk addr = true →
      run false (wfConnect methods rsv addr p1 p2 extra) revs =
        [.sendGreeting, .createDest, .sendReply 1, .closeClient]) := by
  constructor
  · intro ck v n rest revs hstart
    by_cases hv : v = 5
    · subst hv
      have hg : handle_greeting (5 :: n :: rest) = (.ok, rest.drop n, [.sendGreeting]) := by
        simp [handle_greeting]
      rcases handle_request_cases ck (rest.drop n) with h | h | h | h | ⟨addr, port, h⟩
      · simp [logRecords, run, hg, h, isLogRec]
      · simp [logRecords, run, hg, h, isLogRec]
      · simp [logRecords, run, hg, h, isLogRec]
      · simp [logRecords, run, hg, h, isLogRec]
      · exfalso
        have hS : ((relay_data revs 0 0).1).countP isStartRec = 0 :=
          countP_engine_zero revs 0 0 (fun e he => (engineEvent_classify e he).2.2.1)
        have h1 : (run ck (5 :: n :: rest) revs).countP isStartRec = 1 := by
          cases hout : (relay_data revs 0 0).2 with
          | returned s r =>
              simp [run, hg, h, hout, runTail, List.countP_append, List.countP_cons,
                isStartRec, hS]
          | raised m s r =>
              simp [run, hg, h, hout, runTail, List.countP_append, List.countP_cons,
                isStartRec, hS]
          | blocked s r =>
              simp [run, hg, h, hout, runTail, List.countP_append, List.countP_cons,
                isStartRec, hS]
        omega
    · simp [logRecords, run, handle_greeting, hv, isLogRec]
  · intro methods rsv addr p1 p2 extra revs haddr
    rw [run_wfConnect false methods rsv addr p1 p2 extra revs haddr]
    simp

/-- Witness for the amended C4: a bad-version greeting emits no record, and
a failed connect gets reply 1 with no record. -/
theorem C4_witness :
    logRecords (run true (4 :: 0 :: [1, 2]) []) = [] ∧
    run false (wfConnect [0] 0 (.ipv4 10 0 0 1) 0 80 []) [] =
      [.sendGreeting, .createDest, .sendReply 1, .closeClient] :=
  ⟨C4_amended.1 true 4 0 [1, 2] [] (by decide),
   C4_amended.2 [0] 0 (.ipv4 10 0 0 1) 0 80 [] [] rfl⟩

/-- Claim C7: when the relay sees only data chunks and then an orderly close
(a zero-length read) on either side, the engine returns normally and the
session's end record has status closed — not error — with the final
counters and no error message. -/
theorem C7_clean_eof_closed (methods : List Byte) (rsv : Byte) (addr : DestAddr)
    (p1 p2 : Byte) (extra : List Byte) (pre : List RelayEvent) (eof : RelayEvent)
    (haddr : addrOk addr = true)
    (hpre : pre.all isDataChunk = true)
    (heof : eof = .clientData [] ∨ eof = .destData []) :
    ∃ s r, (relay_data (pre ++ [eof]) 0 0).2 = .returned s r ∧
      endRecords (run true (wfConnect methods rsv addr p1 p2 extra) (pre ++ [eof])) =
        [.logEnd s r "closed" none] := by
  obtain ⟨s, r, hret⟩ := relay_data_eof pre eof heof 0 0 hpre
  exact ⟨s, r, hret, run_end_returned methods rsv addr p1 p2 extra _ haddr s r hret⟩

/-- Witness for C7: one chunk then a destination-side EOF. -/
theorem C7_witness :
    ∃ s r, (relay_data ([.clientData [9]] ++ [.destData []]) 0 0).2 = .returned s r ∧
      endRecords (run true (wfConnect [0] 0 (.ipv4 10 0 0 1) 0 80 [])
          ([.clientData [9]] ++ [.destData []])) = [.logEnd s r "closed" none] :=
  C7_clean_eof_closed [0] 0 (.ipv4 10 0 0 1) 0 80 [] [.clientData [9]] (.destData [])
    rfl (by decide) (Or.inr rfl)

/-- Claim C8 fails as stated: on a failed connect the destination socket is
created but never closed, yet the session reaches its terminal path (the
client socket is closed). -/
theorem C8_counterexample :
    (run false (wfConnect [0] 0 (.ipv4 10 0 0 1) 0 80 []) []).countP isCreateDest = 1 ∧
    (run false (wfConnect [0] 0 (.ipv4 10 0 0 1) 0 80 []) []).countP isCloseDest = 0 ∧
    SEvent.closeClient ∈ run false (wfConnect [0] 0 (.ipv4 10 0 0 1) 0 80 []) [] :=
  ⟨by decide, by decide, by decide⟩

/-- Claim C8 amended: on every exit path of the relay engine the destination
socket is closed exactly once, as the engine's last action before it
returns; on every terminal session path the client socket is closed exactly
once, and whenever the session reached the relay phase the destination
socket is closed exactly once — but a destination socket whose connect
fails is created and never closed. -/
theorem C8_amended :
    (∀ (evs : List RelayEvent) (s r : Nat),
      (relay_data evs s r).2.isBlocked = false →
      ∃ t, (relay_data evs s r).1 = t ++ [.closeDest] ∧ t.countP isCloseDest = 0) ∧
    (∀ (ck : Bool) (pb : List Byte) (revs : List RelayEvent),
      SEvent.closeClient ∈ run ck pb revs →
      (run ck pb revs).countP isCloseClient = 1 ∧
      ((run ck pb revs).countP isStartRec = 1 →
        (run ck pb revs).countP isCloseDest = 1)) := by
  constructor
  · exact fun evs s r h => relay_trace_closeDest evs s r h
  · intro ck pb revs hmem
    rcases run_shape ck pb revs with ⟨ms, hsh⟩ | hsh | ⟨evs2, hsh, hevs2⟩ |
      ⟨addr, port, hsh⟩
    · rw [hsh]
      refine ⟨by simp [List.countP_cons, isCloseClient], fun h0 => ?_⟩
      simp [List.countP_cons, isStartRec] at h0
    · rw [hsh]
      refine ⟨by simp [List.countP_cons, isCloseClient], fun h0 => ?_⟩
      simp [List.countP_cons, isStartRec] at h0
    · rw [hsh]
      rcases hevs2 with h2 | h2 | h2 | h2 <;> subst h2
      · refine ⟨by simp [List.countP_cons, List.countP_append, isCloseClient],
          fun h0 => ?_⟩
        simp [List.countP_cons, List.countP_append, isStartRec] at h0
      · refine ⟨by simp [List.countP_cons, List.countP_append, isCloseClient],
          fun h0 => ?_⟩
        simp [List.countP_cons, List.countP_append, isStartRec] at h0
      · refine ⟨by simp [List.countP_cons, List.countP_append, isCloseClient],
          fun h0 => ?_⟩
        simp [List.countP_cons, List.countP_append, isStartRec] at h0
      · refine ⟨by simp [List.countP_cons, List.countP_append, isCloseClient],
          fun h0 => ?_⟩
        simp [List.countP_cons, List.countP_append, isStartRec] at h0
    · by_cases hb : (relay_data revs 0 0).2.isBlocked = true
      · exfalso
        cases hout : (relay_data revs 0 0).2 with
        | returned s r => rw [hout] at hb; simp [RelayOutcome.isBlocked] at hb
        | raised m s r => rw [hout] at hb; simp [RelayOutcome.isBlocked] at hb
        | blocked s r =>
            rw [hsh, hout] at hmem
            simp [runTail] at hmem
            have hcc :=
              (engineEvent_classify _ (relay_trace_engine revs 0 0 _ hmem)).2.2.2.2.2.1
            simp [isCloseClient] at hcc
      · have hb' : (relay_data revs 0 0).2.isBlocked = false := by
          cases hx : (relay_data revs 0 0).2.isBlocked
          · rfl
          · exact absurd hx hb
        obtain ⟨t, ht, htc⟩ := relay_trace_closeDest revs 0 0 hb'
        obtain ⟨_, _, _, tcc, tcd⟩ := runTail_counts _ hb'
        have hEcc : ((relay_data revs 0 0).1).countP isCloseClient = 0 :=
          countP_engine_zero revs 0 0
            (fun e he => (engineEvent_classify e he).2.2.2.2.2.1)
        have hEcd : ((relay_data revs 0 0).1).countP isCloseDest = 1 := by
          rw [ht]
          simp [List.countP_append, List.countP_cons, htc, isCloseDest]
        rw [hsh]
        constructor
        · simp [List.countP_cons, List.countP_append, isCloseClient, hEcc, tcc]
        · intro _
          simp [List.countP_cons, List.countP_append, isCloseDest, hEcd, tcd]

/-- Witness for the amended C8 at a reset relay. -/
theorem C8_witness :
    (∃ t, (relay_data [.clientData [4], .connReset] 0 0).1 = t ++ [.closeDest] ∧
      t.countP isCloseDest = 0) ∧
    ((run true (wfConnect [0] 0 (.ipv4 10 0 0 1) 0 80 []) [.connReset]).countP
        isCloseClient = 1 ∧
      ((run true (wfConnect [0] 0 (.ipv4 10 0 0 1) 0 80 []) [.connReset]).countP
          isStartRec = 1 →
        (run true (wfConnect [0] 0 (.ipv4 10 0 0 1) 0 80 []) [.connReset]).countP
          isCloseDest = 1)) :=
  ⟨C8_amended.1 [.clientData [4], .connReset] 0 0 (by decide),
   C8_amended.2 true (wfConnect [0] 0 (.ipv4 10 0 0 1) 0 80 []) [.connReset] (by decide)⟩

/-- Claim C9: every reply the server writes through `send_reply` is the
fixed 10-byte message VER = 5, REP ∈ {0, 1, 5, 8}, RSV = 0, ATYP = 1,
BND.ADDR = 0.0.0.0, BND.PORT = 0, whatever the request looked like. -/
theorem C9_reply_layout (ck : Bool) (pb : List Byte) (revs : List RelayEvent) (rep : Nat)
    (h : SEvent.sendReply rep ∈ run ck pb revs) :
    (rep = 0 ∨ rep = 1 ∨ rep = 5 ∨ rep = 8) ∧
    replyBytes rep = [5, rep, 0, 1, 0, 0, 0, 0, 0, 0] ∧ (replyBytes rep).length = 10 := by
  refine ⟨?_, rfl, rfl⟩
  rcases run_shape ck pb revs with ⟨ms, hsh⟩ | hsh | ⟨evs2, hsh, hevs2⟩ |
    ⟨addr, port, hsh⟩
  · rw [hsh] at h
    simp at h
  · rw [hsh] at h
    simp at h
  · rcases hevs2 with h2 | h2 | h2 | h2 <;> subst h2 <;> rw [hsh] at h <;> simp at h
    · right; right; left; exact h
    · right; left; exact h
    · right; right; right; exact h
    · right; left; exact h
  · rw [hsh] at h
    simp at h
    rcases h with h | h
    · left; exact h
    rcases h with h | h
    · have he := (engineEvent_classify _ (relay_trace_engine revs 0 0 _ h)).2.1
      simp [isReplyEvent] at he
    · cases hout : (relay_data revs 0 0).2 with
      | returned s r => rw [hout] at h; simp [runTail] at h
      | raised m s r => rw [hout] at h; simp [runTail] at h
      | blocked s r => rw [hout] at h; simp [runTail] at h

/-- Witness for C9 at a failed connect (reply 1). -/
theorem C9_witness :
    ((1 : Nat) = 0 ∨ (1 : Nat) = 1 ∨ (1 : Nat) = 5 ∨ (1 : Nat) = 8) ∧
    replyBytes 1 = [5, 1, 0, 1, 0, 0, 0, 0, 0, 0] ∧ (replyBytes 1).length = 10 :=
  C9_reply_layout false (wfConnect [0] 0 (.ipv4 10 0 0 1) 0 80 []) [] 1 (by decide)

end Socks5
